import Mathlib

/-!
Shallow embedding of the rustzx core components under verification:
the Z80 rotate/shift micro-operation (src/z80/opcodes/internal_rot.rs),
the banked memory system (src/zx/memory.rs), and the bus controller
(rustzx-core/src/zx/controller.rs).  Machine integers (u8/u16/usize) are
modelled as `Nat` with explicit `% 256` / `% 65536` where wrapping or the
value range matters; fallible indexing returns `Option`.
-/

set_option maxRecDepth 4096

namespace RustZX

/-! ## Z80 rotate micro-op (src/src/z80/opcodes/internal_rot.rs) -/

/-- 3-bit rotate opcode selector, as in the source's `U3` type. -/
inductive U3
  | N0 | N1 | N2 | N3 | N4 | N5 | N6 | N7
deriving DecidableEq

/-- Modelled from the spec: the register file names an 8-bit register set;
only the fact that registers are distinct byte cells matters here. -/
inductive Reg8
  | A | B | C | D | E | H | L
deriving DecidableEq

/-- Operand descriptor of the rotate micro-op, as in the source. -/
inductive RotOperand8
  | Indirect (addr : Nat)
  | Reg (reg : Reg8)
deriving DecidableEq

/-- Z80 flag names, mirroring the source's `Flag` enum (including its
`ParityOveflow` spelling). -/
inductive Flag
  | Carry | Sub | ParityOveflow | F3 | HalfCarry | F5 | Zero | Sign
deriving DecidableEq

/-- The flag register as one Bool per flag. -/
structure Flags where
  carry : Bool
  sub : Bool
  parityOveflow : Bool
  f3 : Bool
  halfCarry : Bool
  f5 : Bool
  zero : Bool
  sign : Bool
deriving DecidableEq

/-- Modelled from the spec: the Z80 register file with 8-bit register
accessors and flag accessors (`get_reg_8` / `set_reg_8` / `get_flag` /
`set_flag` live in the z80 register module, outside the given sources). -/
structure Regs where
  reg8 : Reg8 → Nat
  flags : Flags

/-- Modelled from the spec: reading an 8-bit register returns a byte. -/
def Regs.get_reg_8 (r : Regs) (reg : Reg8) : Nat :=
  r.reg8 reg % 256

/-- Modelled from the spec: writing an 8-bit register stores a byte. -/
def Regs.set_reg_8 (r : Regs) (reg : Reg8) (v : Nat) : Regs :=
  { r with reg8 := Function.update r.reg8 reg (v % 256) }

/-- Modelled from the spec: flag read. -/
def Regs.get_flag (r : Regs) (f : Flag) : Bool :=
  match f with
  | Flag.Carry => r.flags.carry
  | Flag.Sub => r.flags.sub
  | Flag.ParityOveflow => r.flags.parityOveflow
  | Flag.F3 => r.flags.f3
  | Flag.HalfCarry => r.flags.halfCarry
  | Flag.F5 => r.flags.f5
  | Flag.Zero => r.flags.zero
  | Flag.Sign => r.flags.sign

/-- Modelled from the spec: flag write. -/
def Regs.set_flag (r : Regs) (f : Flag) (v : Bool) : Regs :=
  match f with
  | Flag.Carry => { r with flags := { r.flags with carry := v } }
  | Flag.Sub => { r with flags := { r.flags with sub := v } }
  | Flag.ParityOveflow => { r with flags := { r.flags with parityOveflow := v } }
  | Flag.F3 => { r with flags := { r.flags with f3 := v } }
  | Flag.HalfCarry => { r with flags := { r.flags with halfCarry := v } }
  | Flag.F5 => { r with flags := { r.flags with f5 := v } }
  | Flag.Zero => { r with flags := { r.flags with zero := v } }
  | Flag.Sign => { r with flags := { r.flags with sign := v } }

/-- The CPU state visible to the rotate micro-op. -/
structure Z80 where
  regs : Regs

/-- The bus as a byte-addressed store (the micro-op only uses read/write). -/
structure Z80Bus where
  mem : Nat → Nat

/-- `bus.read(addr) -> u8`. -/
def Z80Bus.read (bus : Z80Bus) (addr : Nat) : Nat :=
  bus.mem (addr % 65536) % 256

/-- `bus.write(addr, value)`. -/
def Z80Bus.write (bus : Z80Bus) (addr : Nat) (v : Nat) : Z80Bus :=
  { bus with mem := Function.update bus.mem (addr % 65536) (v % 256) }

/-- Modelled from the spec: `tables::PARITY_BIT` (the z80 tables module is
outside the given sources).  Per the spec, P/V is the parity of the result:
entry `n` is 1 iff the byte `n` has an even number of 1 bits. -/
def PARITY_BIT (n : Nat) : Nat :=
  if (n % 2 + n / 2 % 2 + n / 4 % 2 + n / 8 % 2 + n / 16 % 2
      + n / 32 % 2 + n / 64 % 2 + n / 128 % 2) % 2 = 0 then 1 else 0

/-- The operand fetch of `execute_rot` (lines 8-11 of internal_rot.rs). -/
def readOperand (cpu : Z80) (bus : Z80Bus) (operand : RotOperand8) : Nat :=
  match operand with
  | RotOperand8.Indirect addr => bus.read addr
  | RotOperand8.Reg reg => cpu.regs.get_reg_8 reg

/-- The `match rot_code` block of `execute_rot` (lines 13-86 of
internal_rot.rs): from the fetched byte and the prior Carry flag it
computes `(carry, data)`.  Rust's `data << 1` on u8 wraps, hence `% 256`. -/
def rot_step (rot_code : U3) (data0 : Nat) (carry_flag : Bool) : Bool × Nat :=
  match rot_code with
  | U3.N0 =>
    let carry := (data0 &&& 0x80) != 0
    let data := ((data0 <<< 1) % 256) &&& 0xFE
    let data := if carry then data ||| 0x01 else data
    (carry, data)
  | U3.N1 =>
    let carry := (data0 &&& 0x01) != 0
    let data := (data0 >>> 1) &&& 0x7F
    let data := if carry then data ||| 0x80 else data
    (carry, data)
  | U3.N2 =>
    let carry := (data0 &&& 0x80) != 0
    let data := ((data0 <<< 1) % 256) &&& 0xFE
    let data := if carry_flag then data ||| 0x01 else data
    (carry, data)
  | U3.N3 =>
    let carry := (data0 &&& 0x01) != 0
    let data := (data0 >>> 1) &&& 0x7F
    let data := if carry_flag then data ||| 0x80 else data
    (carry, data)
  | U3.N4 =>
    let carry := (data0 &&& 0x80) != 0
    (carry, ((data0 <<< 1) % 256) &&& 0xFE)
  | U3.N5 =>
    let carry := (data0 &&& 0x01) != 0
    (carry, ((data0 >>> 1) &&& 0x7F) ||| (data0 &&& 0x80))
  | U3.N6 =>
    let carry := (data0 &&& 0x80) != 0
    (carry, ((data0 <<< 1) % 256) ||| 0x01)
  | U3.N7 =>
    let carry := (data0 &&& 0x01) != 0
    (carry, (data0 >>> 1) &&& 0x7F)

/-- `execute_rot` (internal_rot.rs lines 6-112): fetch the operand byte,
rotate/shift it, compute the flags, write the result back and return it. -/
def execute_rot (cpu : Z80) (bus : Z80Bus) (rot_code : U3)
    (operand : RotOperand8) : Z80 × Z80Bus × Nat :=
  let data0 := readOperand cpu bus operand
  let res := rot_step rot_code data0 (cpu.regs.get_flag Flag.Carry)
  let carry := res.1
  let data := res.2
  let zero := data == 0
  let sign := (data &&& 0x80) != 0
  let half_carry := true
  let pv := PARITY_BIT data != 0
  let sub := false
  let f3 := (data &&& 0b1000) != 0
  let f5 := (data &&& 0b100000) != 0
  let st : Z80 × Z80Bus :=
    match operand with
    | RotOperand8.Indirect addr => (cpu, bus.write addr data)
    | RotOperand8.Reg reg => ({ cpu with regs := cpu.regs.set_reg_8 reg data }, bus)
  let cpu2 := st.1
  let bus2 := st.2
  let regs := cpu2.regs
  let regs := regs.set_flag Flag.Carry carry
  let regs := regs.set_flag Flag.Sub sub
  let regs := regs.set_flag Flag.ParityOveflow pv
  let regs := regs.set_flag Flag.F3 f3
  let regs := regs.set_flag Flag.HalfCarry half_carry
  let regs := regs.set_flag Flag.F5 f5
  let regs := regs.set_flag Flag.Zero zero
  let regs := regs.set_flag Flag.Sign sign
  ({ cpu2 with regs := regs }, bus2, data)

/-- Specification-side rotation table, written from the claim's words:
result byte and carry-out for each of the eight codes (carry-in `c` is the
prior Carry flag for RL/RR). -/
def specRot (code : U3) (b : Nat) (c : Bool) : Nat × Bool :=
  match code with
  | U3.N0 => (((b <<< 1) % 256) ||| (if b.testBit 7 then 1 else 0), b.testBit 7)
  | U3.N1 => ((b >>> 1) ||| (if b.testBit 0 then 0x80 else 0), b.testBit 0)
  | U3.N2 => (((b <<< 1) % 256) ||| (if c then 1 else 0), b.testBit 7)
  | U3.N3 => ((b >>> 1) ||| (if c then 0x80 else 0), b.testBit 0)
  | U3.N4 => ((b <<< 1) % 256, b.testBit 7)
  | U3.N5 => ((b >>> 1) ||| (b &&& 0x80), b.testBit 0)
  | U3.N6 => (((b <<< 1) % 256) ||| 1, b.testBit 7)
  | U3.N7 => ((b >>> 1) &&& 0x7F, b.testBit 0)

/-! ## Banked memory (src/src/zx/memory.rs) -/

def PAGE_SIZE : Nat := 16 * 1024

def SIZE_16K : Nat := PAGE_SIZE

def SIZE_32K : Nat := PAGE_SIZE * 2

def SIZE_48K : Nat := PAGE_SIZE * 3

def SIZE_64K : Nat := PAGE_SIZE * 4

def SIZE_128K : Nat := PAGE_SIZE * 8

def MEM_BLOCKS : Nat := 4

/-- Rom type enum. -/
inductive RomType
  | K16 | K32 | K64
deriving DecidableEq

/-- Ram type enum. -/
inductive RamType
  | K16 | K48 | K128
deriving DecidableEq

/-- Page info and type. -/
inductive Page
  | Ram (page : Nat)
  | Rom (page : Nat)
deriving DecidableEq

/-- Memory struct: ROM pool, RAM pool and the 4 x 16K block map. -/
structure ZXMemory where
  rom : List Nat
  ram : List Nat
  map : Fin 4 → Page

/-- Builds a `Fin 4` map from the four entries of a Rust `[Page; 4]`. -/
def mkMap (p0 p1 p2 p3 : Page) : Fin 4 → Page :=
  fun i =>
    match i with
    | 0 => p0
    | 1 => p1
    | 2 => p2
    | 3 => p3

/-- `ZXMemory::new` (memory.rs lines 40-67): pools of zeros sized by the
rom/ram type and the machine's initial map. -/
def ZXMemory.new (rom_type : RomType) (ram_type : RamType) : ZXMemory :=
  let ram_size :=
    match ram_type with
    | RamType.K16 => SIZE_16K
    | RamType.K48 => SIZE_48K
    | RamType.K128 => SIZE_128K
  let mem_map :=
    match ram_type with
    | RamType.K16 => mkMap (Page.Rom 0) (Page.Ram 0) (Page.Ram 0) (Page.Ram 0)
    | RamType.K48 => mkMap (Page.Rom 0) (Page.Ram 0) (Page.Ram 1) (Page.Ram 2)
    | RamType.K128 => mkMap (Page.Rom 0) (Page.Ram 5) (Page.Ram 2) (Page.Ram 0)
  let rom_size :=
    match rom_type with
    | RomType.K16 => SIZE_16K
    | RomType.K32 => SIZE_32K
    | RomType.K64 => SIZE_64K
  { rom := List.replicate rom_size 0
    ram := List.replicate ram_size 0
    map := mem_map }

/-- The 16 KiB slot of a 16-bit address: `(addr as usize) / PAGE_SIZE`. -/
def ZXMemory.slot (addr : Nat) : Fin 4 :=
  ⟨addr % 65536 / PAGE_SIZE, by simp only [PAGE_SIZE]; omega⟩

/-- `read` (memory.rs lines 70-77); `none` models an out-of-bounds pool
index, which in Rust would panic. -/
def ZXMemory.read (m : ZXMemory) (addr : Nat) : Option Nat :=
  let page := m.map (ZXMemory.slot addr)
  let addr_rel := addr % 65536 % PAGE_SIZE
  match page with
  | Page.Rom p => m.rom[p * PAGE_SIZE + addr_rel]?
  | Page.Ram p => m.ram[p * PAGE_SIZE + addr_rel]?

/-- `write` (memory.rs lines 80-89): writes to the RAM pool, silently
ignores ROM slots; `none` models an out-of-bounds RAM index (Rust panic). -/
def ZXMemory.write (m : ZXMemory) (addr : Nat) (value : Nat) : Option ZXMemory :=
  let page := m.map (ZXMemory.slot addr)
  let addr_rel := addr % 65536 % PAGE_SIZE
  match page with
  | Page.Ram p =>
    if p * PAGE_SIZE + addr_rel < m.ram.length then
      some { m with ram := m.ram.set (p * PAGE_SIZE + addr_rel) (value % 256) }
    else
      none
  | _ => some m

/-- `remap` (memory.rs lines 92-105): replaces `map[block]` when the block
and the page index are in range; returns the (possibly unchanged) memory
together with the success flag of the `Result`. -/
def ZXMemory.remap (m : ZXMemory) (block : Nat) (page : Page) : ZXMemory × Bool :=
  if h : block < MEM_BLOCKS then
    match page with
    | Page.Ram p =>
      if (p + 1) * PAGE_SIZE > m.ram.length then (m, false)
      else ({ m with map := Function.update m.map ⟨block, by simpa [MEM_BLOCKS] using h⟩ page }, true)
    | Page.Rom p =>
      if (p + 1) * PAGE_SIZE > m.rom.length then (m, false)
      else ({ m with map := Function.update m.map ⟨block, by simpa [MEM_BLOCKS] using h⟩ page }, true)
  else
    (m, false)

/-- `get_page` (used by the controller): page selector of the slot of `addr`. -/
def ZXMemory.get_page (m : ZXMemory) (addr : Nat) : Page :=
  m.map (ZXMemory.slot addr)

/-- Whether a page selector is a ROM page. -/
def Page.isRom : Page → Bool
  | Page.Rom _ => true
  | Page.Ram _ => false

/-- Specification-side predicate: the page's index is in range of its pool
(`(index + 1) * 16384` does not exceed the pool length). -/
def pageFits (m : ZXMemory) : Page → Prop
  | Page.Ram p => (p + 1) * PAGE_SIZE ≤ m.ram.length
  | Page.Rom p => (p + 1) * PAGE_SIZE ≤ m.rom.length

/-- The memory invariant: every map entry refers to an in-bounds page. -/
def mapInBounds (m : ZXMemory) : Prop :=
  ∀ i : Fin 4, pageFits m (m.map i)

/-! ## Bus controller (src/rustzx-core/src/zx/controller.rs)

Only the state the verified operations touch is modelled; the external
collaborators (screen renderer, border, tape, mixer) are out of scope per
the spec and their calls have no bearing on the verified fields. -/

/-- Machine variant. -/
inductive ZXMachine
  | Sinclair48K | Sinclair128K
deriving DecidableEq

/-- Modelled from the spec: a key carries `(row_id, mask)`; the `ZXKey`
type and its accessors live outside the given sources. -/
structure ZXKey where
  row_id : Nat
  mask : Nat
deriving DecidableEq

/-- The controller state relevant to the verified operations.
`clocks_frame` stands for `machine.specs().clocks_frame`, modelled from
the spec as an unspecified per-machine constant. -/
structure ZXController where
  machine : ZXMachine
  memory : ZXMemory
  keyboard : List Nat
  frame_clocks : Nat
  passed_frames : Nat
  paging_enabled : Bool
  screen_bank : Nat
  clocks_frame : Nat

/-- `ZXController::new` (controller.rs lines 56-112), restricted to the
modelled fields; `clocks_frame` is the machine spec constant. -/
def ZXController.new (machine : ZXMachine) (clocks_frame : Nat) : ZXController :=
  match machine with
  | ZXMachine.Sinclair48K =>
    { machine := machine
      memory := ZXMemory.new RomType.K16 RamType.K48
      keyboard := List.replicate 8 0xFF
      frame_clocks := 0
      passed_frames := 0
      paging_enabled := false
      screen_bank := 0
      clocks_frame := clocks_frame }
  | ZXMachine.Sinclair128K =>
    { machine := machine
      memory := ZXMemory.new RomType.K32 RamType.K128
      keyboard := List.replicate 8 0xFF
      frame_clocks := 0
      passed_frames := 0
      paging_enabled := true
      screen_bank := 5
      clocks_frame := clocks_frame }

/-- `send_key` (controller.rs lines 156-162): clear the key's bits in its
row, then set them back when the key is released.  Rust's `!mask` on u8 is
`0xFF ^^^ mask`. -/
def ZXController.send_key (s : ZXController) (key : ZXKey) (pressed : Bool) : ZXController :=
  let row_id := key.row_id
  let kb := s.keyboard.set row_id ((s.keyboard.getD row_id 0) &&& (0xFF ^^^ key.mask))
  let kb := if !pressed then kb.set row_id ((kb.getD row_id 0) ||| key.mask) else kb
  { s with keyboard := kb }

/-- `new_frame` (controller.rs lines 232-239): subtracts `clocks_frame`
from the frame clock (the screen/border/mixer notifications are external). -/
def ZXController.new_frame (s : ZXController) : ZXController :=
  { s with frame_clocks := s.frame_clocks - s.clocks_frame }

/-- `wait_internal` (controller.rs lines 357-373): add the clocks; when the
frame clock reaches `clocks_frame`, start a new frame and count it (the
tape/mixer/screen updates are external). -/
def ZXController.wait_internal (s : ZXController) (clk : Nat) : ZXController :=
  let s := { s with frame_clocks := s.frame_clocks + clk }
  if s.frame_clocks ≥ s.clocks_frame then
    let s := s.new_frame
    { s with passed_frames := s.passed_frames + 1 }
  else
    s

/-- `write_7ffd` (controller.rs lines 265-282). -/
def ZXController.write_7ffd (s : ZXController) (val : Nat) : ZXController :=
  if !s.paging_enabled then
    s
  else
    let s := { s with memory := (s.memory.remap 3 (Page.Ram (val &&& 0x07))).1 }
    let new_screen_bank : Nat := if val &&& 0x08 == 0 then 5 else 7
    let s := { s with screen_bank := new_screen_bank }
    let s := { s with memory := (s.memory.remap 0 (Page.Rom ((val >>> 4) &&& 0x01))).1 }
    if val &&& 0x20 != 0 then { s with paging_enabled := false } else s

/-- Specification-side count of `clocks_frame` boundaries crossed by a
wait that advances the frame clock from `f` to `f + k`. -/
def boundariesCrossed (f k cf : Nat) : Nat :=
  (f + k) / cf - f / cf

/-! ## Helper lemmas -/

lemma rotStep_ok (code : U3) : ∀ b < 256, ∀ c : Bool,
    rot_step code b c = ((specRot code b c).2, (specRot code b c).1)
      ∧ (specRot code b c).1 < 256 := by
  cases code <;> decide

lemma bus_read_lt (bus : Z80Bus) (addr : Nat) : bus.read addr < 256 :=
  Nat.mod_lt _ (by norm_num)

lemma reg_read_lt (r : Regs) (reg : Reg8) : r.get_reg_8 reg < 256 :=
  Nat.mod_lt _ (by norm_num)

lemma readOperand_lt (cpu : Z80) (bus : Z80Bus) (operand : RotOperand8) :
    readOperand cpu bus operand < 256 := by
  cases operand <;> simp [readOperand, bus_read_lt, reg_read_lt]

lemma remap_success_iff (m : ZXMemory) (block : Nat) (page : Page) :
    (m.remap block page).2 = true ↔ block < MEM_BLOCKS ∧ pageFits m page := by
  by_cases h : block < MEM_BLOCKS
  · rcases page with p | p <;>
      simp only [ZXMemory.remap, dif_pos h, pageFits] <;>
      split <;> simp_all
  · rcases page with p | p <;> simp [ZXMemory.remap, h]

lemma remap_fail (m : ZXMemory) (block : Nat) (page : Page) :
    (m.remap block page).2 = false → (m.remap block page).1 = m := by
  by_cases h : block < MEM_BLOCKS
  · rcases page with p | p <;>
      simp only [ZXMemory.remap, dif_pos h] <;>
      split <;> simp
  · rcases page with p | p <;> simp [ZXMemory.remap, h]

lemma remap_success_eq (m : ZXMemory) (block : Nat) (page : Page)
    (h : block < 4) (hfit : pageFits m page) :
    m.remap block page
      = ({ m with map := Function.update m.map ⟨block, h⟩ page }, true) := by
  have h4 : block < MEM_BLOCKS := by simpa [MEM_BLOCKS] using h
  rcases page with p | p
  · have hfit2 : (p + 1) * PAGE_SIZE ≤ m.ram.length := hfit
    simp only [ZXMemory.remap, dif_pos h4]
    rw [if_neg (by omega)]
  · have hfit2 : (p + 1) * PAGE_SIZE ≤ m.rom.length := hfit
    simp only [ZXMemory.remap, dif_pos h4]
    rw [if_neg (by omega)]

lemma isSome_getElem (l : List Nat) (i : Nat) (h : i < l.length) :
    l[i]?.isSome = true := by
  simp [List.getElem?_eq_getElem h]

lemma pageFits_map_irrel (m : ZXMemory) (f : Fin 4 → Page) (pg : Page) :
    pageFits { m with map := f } pg ↔ pageFits m pg := by
  cases pg <;> exact Iff.rfl

lemma pageFits_ram (m : ZXMemory) (p : Nat) :
    pageFits m (Page.Ram p) ↔ (p + 1) * PAGE_SIZE ≤ m.ram.length := Iff.rfl

lemma pageFits_rom (m : ZXMemory) (p : Nat) :
    pageFits m (Page.Rom p) ↔ (p + 1) * PAGE_SIZE ≤ m.rom.length := Iff.rfl

/-! ## Claim theorems -/

/-- C1: for every 3-bit rotate code, every CPU and bus state (hence every
input byte and prior Carry flag) and every operand, `execute_rot` returns
the byte and carry-out of the spec's rotation table (`specRot`), and the
returned byte is written back to the operand. -/
theorem execute_rot_rotation_table (cpu : Z80) (bus : Z80Bus) (code : U3)
    (operand : RotOperand8) :
    (execute_rot cpu bus code operand).2.2
        = (specRot code (readOperand cpu bus operand) (cpu.regs.get_flag Flag.Carry)).1
    ∧ (execute_rot cpu bus code operand).1.regs.get_flag Flag.Carry
        = (specRot code (readOperand cpu bus operand) (cpu.regs.get_flag Flag.Carry)).2
    ∧ readOperand (execute_rot cpu bus code operand).1
          (execute_rot cpu bus code operand).2.1 operand
        = (specRot code (readOperand cpu bus operand) (cpu.regs.get_flag Flag.Carry)).1 := by
  cases operand with
  | Indirect addr =>
    obtain ⟨hstep, hlt⟩ :=
      rotStep_ok code (bus.read addr) (bus_read_lt bus addr) (cpu.regs.get_flag Flag.Carry)
    simp only [Z80Bus.read, Regs.get_flag] at hstep hlt
    refine ⟨?_, ?_, ?_⟩ <;>
      simp [execute_rot, readOperand, Z80Bus.read, Z80Bus.write,
        Regs.get_flag, Regs.set_flag, hstep, Nat.mod_eq_of_lt hlt,
        Function.update_same]
  | Reg reg =>
    obtain ⟨hstep, hlt⟩ :=
      rotStep_ok code (cpu.regs.get_reg_8 reg) (reg_read_lt cpu.regs reg)
        (cpu.regs.get_flag Flag.Carry)
    simp only [Regs.get_reg_8, Regs.get_flag] at hstep hlt
    refine ⟨?_, ?_, ?_⟩ <;>
      simp [execute_rot, readOperand, Regs.get_reg_8, Regs.set_reg_8,
        Regs.get_flag, Regs.set_flag, hstep, Nat.mod_eq_of_lt hlt,
        Function.update_same]

/-- C2: after `execute_rot` the flags are Sign = bit 7 of the result,
Zero iff the result is 0, F5 = bit 5, F3 = bit 3, Parity/Overflow = even
parity of the result, Sub = 0, Carry = the carry-out of the operation, and
HalfCarry = 1 for all eight codes. -/
theorem execute_rot_flags (cpu : Z80) (bus : Z80Bus) (code : U3)
    (operand : RotOperand8) :
    (execute_rot cpu bus code operand).1.regs.get_flag Flag.Sign
        = (((execute_rot cpu bus code operand).2.2 &&& 0x80) != 0)
    ∧ (execute_rot cpu bus code operand).1.regs.get_flag Flag.Zero
        = ((execute_rot cpu bus code operand).2.2 == 0)
    ∧ (execute_rot cpu bus code operand).1.regs.get_flag Flag.F5
        = (((execute_rot cpu bus code operand).2.2 &&& 0x20) != 0)
    ∧ (execute_rot cpu bus code operand).1.regs.get_flag Flag.F3
        = (((execute_rot cpu bus code operand).2.2 &&& 0x08) != 0)
    ∧ (execute_rot cpu bus code operand).1.regs.get_flag Flag.ParityOveflow
        = (PARITY_BIT (execute_rot cpu bus code operand).2.2 != 0)
    ∧ (execute_rot cpu bus code operand).1.regs.get_flag Flag.Sub = false
    ∧ (execute_rot cpu bus code operand).1.regs.get_flag Flag.HalfCarry = true
    ∧ (execute_rot cpu bus code operand).1.regs.get_flag Flag.Carry
        = (specRot code (readOperand cpu bus operand) (cpu.regs.get_flag Flag.Carry)).2 := by
  cases operand with
  | Indirect addr =>
    obtain ⟨hstep, hlt⟩ :=
      rotStep_ok code (bus.read addr) (bus_read_lt bus addr) (cpu.regs.get_flag Flag.Carry)
    simp only [Z80Bus.read, Regs.get_flag] at hstep hlt
    refine ⟨?_, ?_, ?_, ?_, ?_, ?_, ?_, ?_⟩ <;>
      simp [execute_rot, readOperand, Z80Bus.read, Regs.get_flag, Regs.set_flag, hstep]
  | Reg reg =>
    obtain ⟨hstep, hlt⟩ :=
      rotStep_ok code (cpu.regs.get_reg_8 reg) (reg_read_lt cpu.regs reg)
        (cpu.regs.get_flag Flag.Carry)
    simp only [Regs.get_reg_8, Regs.get_flag] at hstep hlt
    refine ⟨?_, ?_, ?_, ?_, ?_, ?_, ?_, ?_⟩ <;>
      simp [execute_rot, readOperand, Regs.get_reg_8, Regs.get_flag, Regs.set_flag, hstep]

/-- Concrete CPU state for the RLC 0x85 scenario: register A holds 0x85,
all flags clear. -/
def c9_cpu : Z80 :=
  { regs :=
    { reg8 := fun _ => 0x85
      flags :=
      { carry := false, sub := false, parityOveflow := false, f3 := false
        halfCarry := false, f5 := false, zero := false, sign := false } } }

/-- Concrete bus for the RLC 0x85 scenario. -/
def c9_bus : Z80Bus := { mem := fun _ => 0 }

/-- C9 counterexample: rotating 0x85 with code 0 (RLC) does give result
0x0B, but the Parity/Overflow flag comes out 0 (0x0B has three 1-bits,
odd parity), so the claimed P = 1 is false at this very input. -/
theorem rlc_0x85_counterexample :
    ¬ ((execute_rot c9_cpu c9_bus U3.N0 (RotOperand8.Reg Reg8.A)).2.2 = 0x0B
       ∧ (execute_rot c9_cpu c9_bus U3.N0 (RotOperand8.Reg Reg8.A)).1.regs.get_flag
           Flag.ParityOveflow = true) := by
  decide

/-- C9 amended: executing `execute_rot` with code 0 (RLC) on 0x85 returns
0x0B and leaves Carry = 1, Sign = 0, Zero = 0 and Parity/Overflow = 0. -/
theorem rlc_0x85_scenario :
    (execute_rot c9_cpu c9_bus U3.N0 (RotOperand8.Reg Reg8.A)).2.2 = 0x0B
    ∧ (execute_rot c9_cpu c9_bus U3.N0 (RotOperand8.Reg Reg8.A)).1.regs.get_flag
        Flag.Carry = true
    ∧ (execute_rot c9_cpu c9_bus U3.N0 (RotOperand8.Reg Reg8.A)).1.regs.get_flag
        Flag.Sign = false
    ∧ (execute_rot c9_cpu c9_bus U3.N0 (RotOperand8.Reg Reg8.A)).1.regs.get_flag
        Flag.Zero = false
    ∧ (execute_rot c9_cpu c9_bus U3.N0 (RotOperand8.Reg Reg8.A)).1.regs.get_flag
        Flag.ParityOveflow = false := by
  decide

/-- Concrete 48K controller (69888 T-states per frame) for the frame
accounting claims. -/
def c3_controller : ZXController := ZXController.new ZXMachine.Sinclair48K 69888

/-- C3 amended: `wait_internal(k)` adds `k` to `frame_clocks`; when the new
value reaches `clocks_frame` it subtracts `clocks_frame` once (preserving
the residue) and increments `passed_frames` once; the increment equals the
number of boundaries crossed whenever at most one boundary is crossed
(`frame_clocks < clocks_frame` and `frame_clocks + k < 2·clocks_frame`). -/
theorem wait_internal_frame_accounting (s : ZXController) (k : Nat) :
    ((s.wait_internal k).frame_clocks
        = if s.clocks_frame ≤ s.frame_clocks + k then s.frame_clocks + k - s.clocks_frame
          else s.frame_clocks + k)
    ∧ ((s.wait_internal k).passed_frames
        = s.passed_frames + if s.clocks_frame ≤ s.frame_clocks + k then 1 else 0)
    ∧ (s.frame_clocks < s.clocks_frame → s.frame_clocks + k < 2 * s.clocks_frame →
        (s.wait_internal k).passed_frames - s.passed_frames
          = boundariesCrossed s.frame_clocks k s.clocks_frame) := by
  refine ⟨?_, ?_, ?_⟩
  · simp only [ZXController.wait_internal, ZXController.new_frame, ge_iff_le]
    split <;> rfl
  · simp only [ZXController.wait_internal, ZXController.new_frame, ge_iff_le]
    split <;> simp
  · intro h1 h2
    have hf0 : s.frame_clocks / s.clocks_frame = 0 := Nat.div_eq_of_lt h1
    by_cases h : s.clocks_frame ≤ s.frame_clocks + k
    · have h11 : (s.frame_clocks + k) / s.clocks_frame = 1 :=
        Nat.div_eq_of_lt_le (by omega) (by omega)
      simp [ZXController.wait_internal, ZXController.new_frame, boundariesCrossed,
        hf0, h11, h]
    · have h00 : (s.frame_clocks + k) / s.clocks_frame = 0 :=
        Nat.div_eq_of_lt (by omega)
      simp [ZXController.wait_internal, ZXController.new_frame, boundariesCrossed,
        hf0, h00, h]

/-- C3 counterexample: with 69888 clocks per frame and `frame_clocks = 0`,
a single `wait_internal(139776)` crosses two frame boundaries but
increments `passed_frames` only once. -/
theorem wait_internal_counterexample :
    (c3_controller.wait_internal 139776).passed_frames - c3_controller.passed_frames = 1
    ∧ boundariesCrossed c3_controller.frame_clocks 139776 c3_controller.clocks_frame = 2
    ∧ (c3_controller.wait_internal 139776).passed_frames - c3_controller.passed_frames
        ≠ boundariesCrossed c3_controller.frame_clocks 139776 c3_controller.clocks_frame := by
  refine ⟨by decide, by decide, by decide⟩

/-- C3 witness: a concrete single-boundary wait where the increments match. -/
theorem wait_internal_witness :
    (c3_controller.wait_internal 100).passed_frames - c3_controller.passed_frames
      = boundariesCrossed c3_controller.frame_clocks 100 c3_controller.clocks_frame :=
  (wait_internal_frame_accounting c3_controller 100).2.2 (by decide) (by decide)

/-- C5: `remap(block, page)` succeeds iff `block < 4` and the page index is
in range of its pool; on success it replaces `map[block]`, on failure it
leaves the memory (in particular the whole map) unchanged. -/
theorem remap_characterization (m : ZXMemory) (block : Nat) (page : Page) :
    ((m.remap block page).2 = true ↔ block < MEM_BLOCKS ∧ pageFits m page)
    ∧ ((m.remap block page).2 = false → (m.remap block page).1 = m)
    ∧ ((m.remap block page).2 = true →
        ∃ h : block < 4,
          (m.remap block page).1
            = { m with map := Function.update m.map ⟨block, h⟩ page }) := by
  refine ⟨remap_success_iff m block page, remap_fail m block page, ?_⟩
  intro hs
  obtain ⟨hb, hfit⟩ := (remap_success_iff m block page).1 hs
  have hb4 : block < 4 := by simpa [MEM_BLOCKS] using hb
  exact ⟨hb4, by rw [remap_success_eq m block page hb4 hfit]⟩

/-- C5 witness: remapping an out-of-range block fails and leaves the
memory unchanged. -/
theorem remap_witness :
    ((ZXMemory.new RomType.K16 RamType.K16).remap 5 (Page.Rom 0)).1
      = ZXMemory.new RomType.K16 RamType.K16 :=
  (remap_characterization (ZXMemory.new RomType.K16 RamType.K16) 5 (Page.Rom 0)).2.1
    (by decide)

/-- C6: a write to an address whose slot is mapped to a ROM page leaves the
whole memory state unchanged, so a read after the write returns the same
byte as before. -/
theorem write_rom_ignored (m : ZXMemory) (addr v : Nat)
    (h : (m.map (ZXMemory.slot addr)).isRom = true) :
    m.write addr v = some m
    ∧ (m.write addr v).bind (fun m2 => m2.read addr) = m.read addr := by
  have hw : m.write addr v = some m := by
    rcases hp : m.map (ZXMemory.slot addr) with p | p
    · rw [hp] at h; simp [Page.isRom] at h
    · simp [ZXMemory.write, hp]
  exact ⟨hw, by rw [hw]; rfl⟩

/-- C6 witness: on a fresh 48K memory, slot 0 is ROM and a write there is
a no-op. -/
theorem write_rom_witness :
    (ZXMemory.new RomType.K16 RamType.K48).write 0 7
      = some (ZXMemory.new RomType.K16 RamType.K48) :=
  (write_rom_ignored (ZXMemory.new RomType.K16 RamType.K48) 0 7 (by decide)).1

/-- C10: `read`/`write` index their pool at `page * 16384 + addr % 16384`,
which is in bounds whenever every map entry is in range of its pool, so
neither returns `none` (the Rust code cannot panic); the constructor
establishes that invariant for every ROM/RAM size combination and every
successful `remap` preserves it. -/
theorem memory_index_safety :
    (∀ (m : ZXMemory) (addr v : Nat), mapInBounds m →
        (m.read addr).isSome = true ∧ (m.write addr v).isSome = true)
    ∧ (∀ (rt : RomType) (rmt : RamType), mapInBounds (ZXMemory.new rt rmt))
    ∧ (∀ (m : ZXMemory) (block : Nat) (page : Page), mapInBounds m →
        (m.remap block page).2 = true → mapInBounds (m.remap block page).1) := by
  refine ⟨?_, ?_, ?_⟩
  · intro m addr v hinv
    have hrel : addr % 65536 % PAGE_SIZE < PAGE_SIZE :=
      Nat.mod_lt _ (by simp [PAGE_SIZE])
    have hp := hinv (ZXMemory.slot addr)
    constructor
    · rcases hpg : m.map (ZXMemory.slot addr) with p | p
      · rw [hpg] at hp
        have hle : (p + 1) * PAGE_SIZE ≤ m.ram.length := hp
        have hidx : p * PAGE_SIZE + addr % 65536 % PAGE_SIZE < m.ram.length := by
          simp only [PAGE_SIZE] at *; omega
        simp [ZXMemory.read, hpg, isSome_getElem _ _ hidx]
      · rw [hpg] at hp
        have hle : (p + 1) * PAGE_SIZE ≤ m.rom.length := hp
        have hidx : p * PAGE_SIZE + addr % 65536 % PAGE_SIZE < m.rom.length := by
          simp only [PAGE_SIZE] at *; omega
        simp [ZXMemory.read, hpg, isSome_getElem _ _ hidx]
    · rcases hpg : m.map (ZXMemory.slot addr) with p | p
      · rw [hpg] at hp
        have hle : (p + 1) * PAGE_SIZE ≤ m.ram.length := hp
        have hidx : p * PAGE_SIZE + addr % 65536 % PAGE_SIZE < m.ram.length := by
          simp only [PAGE_SIZE] at *; omega
        simp [ZXMemory.write, hpg, hidx]
      · simp [ZXMemory.write, hpg]
  · intro rt rmt
    cases rt <;> cases rmt <;> intro i <;> fin_cases i <;>
      simp only [ZXMemory.new, mkMap, pageFits, List.length_replicate,
        SIZE_16K, SIZE_32K, SIZE_48K, SIZE_64K, SIZE_128K, PAGE_SIZE] <;>
      omega
  · intro m block page hinv hs
    obtain ⟨hb, hfit⟩ := (remap_success_iff m block page).1 hs
    have hb4 : block < 4 := by simpa [MEM_BLOCKS] using hb
    rw [remap_success_eq m block page hb4 hfit]
    intro i
    show pageFits { m with map := Function.update m.map ⟨block, hb4⟩ page }
        (Function.update m.map ⟨block, hb4⟩ page i)
    by_cases hi : i = ⟨block, hb4⟩
    · subst hi
      rw [Function.update_same]
      exact (pageFits_map_irrel m _ page).2 hfit
    · rw [Function.update_noteq hi]
      exact (pageFits_map_irrel m _ (m.map i)).2 (hinv i)

lemma getD_set_self (l : List Nat) (n v : Nat) (h : n < l.length) :
    (l.set n v).getD n 0 = v := by
  simp [List.getD_eq_getElem?_getD, List.getElem?_set_self h]

lemma set_getD_self (l : List Nat) (n : Nat) (h : n < l.length) :
    l.set n (l.getD n 0) = l := by
  apply List.ext_getElem?
  intro i
  by_cases hi : n = i
  · subst hi
    rw [List.getElem?_set_self h, List.getD_eq_getElem _ _ h,
      List.getElem?_eq_getElem h]
  · rw [List.getElem?_set_ne hi]

lemma kb_bits_restore : ∀ b < 256, ∀ m < 32,
    b &&& m = m → ((b &&& (0xFF ^^^ m)) &&& (0xFF ^^^ m)) ||| m = b := by
  decide

lemma kb_step_bits : ∀ b < 256, ∀ m < 32,
    b &&& 0xE0 = 0xE0 →
      ((b &&& (0xFF ^^^ m)) < 256 ∧ (b &&& (0xFF ^^^ m)) &&& 0xE0 = 0xE0
       ∧ ((b &&& (0xFF ^^^ m)) ||| m) < 256
       ∧ ((b &&& (0xFF ^^^ m)) ||| m) &&& 0xE0 = 0xE0) := by
  decide

/-- The keyboard row written by one `send_key` call (in-bounds row). -/
lemma send_key_keyboard_eq (s : ZXController) (k : ZXKey) (p : Bool)
    (hrow : k.row_id < s.keyboard.length) :
    (s.send_key k p).keyboard
      = s.keyboard.set k.row_id
          (if p then s.keyboard.getD k.row_id 0 &&& (0xFF ^^^ k.mask)
           else (s.keyboard.getD k.row_id 0 &&& (0xFF ^^^ k.mask)) ||| k.mask) := by
  cases p <;>
    simp [ZXController.send_key, List.getD_eq_getElem?_getD,
      List.getElem?_set_self hrow, List.set_set]

/-- One `send_key` call keeps every keyboard row a byte with bits 5-7 set. -/
lemma send_key_preserves (s : ZXController) (k : ZXKey) (p : Bool)
    (hmask : k.mask < 0x20)
    (hinv : ∀ b ∈ s.keyboard, b < 256 ∧ b &&& 0xE0 = 0xE0) :
    ∀ b ∈ (s.send_key k p).keyboard, b < 256 ∧ b &&& 0xE0 = 0xE0 := by
  intro b hbmem
  by_cases hrow : k.row_id < s.keyboard.length
  · rw [send_key_keyboard_eq s k p hrow] at hbmem
    rcases List.mem_or_eq_of_mem_set hbmem with hmem | heq
    · exact hinv b hmem
    · have hb0 : s.keyboard.getD k.row_id 0 ∈ s.keyboard := by
        rw [List.getD_eq_getElem _ _ hrow]
        exact List.getElem_mem hrow
      obtain ⟨hlt, hbits⟩ := hinv _ hb0
      obtain ⟨h1, h2, h3, h4⟩ := kb_step_bits _ hlt k.mask hmask hbits
      subst heq
      cases p <;> simp_all
  · have hkb : (s.send_key k p).keyboard = s.keyboard := by
      have hle : s.keyboard.length ≤ k.row_id := Nat.le_of_not_lt hrow
      cases p <;>
        simp [ZXController.send_key, List.set_eq_of_length_le, hle,
          List.set_eq_of_length_le hle]
    rw [hkb] at hbmem
    exact hinv b hbmem

/-- C4 helper: with paging disabled, `write_7ffd` returns at once. -/
lemma write_7ffd_disabled (s : ZXController) (h : s.paging_enabled = false) (d : Nat) :
    s.write_7ffd d = s := by
  simp [ZXController.write_7ffd, h]

/-- C4: with paging enabled (on the 128K memory layout) `write_7ffd(d)`
maps slot 3 to `Ram(d & 7)`, sets `screen_bank` to 7 or 5 from bit 3,
maps slot 0 to `Rom((d >> 4) & 1)`, and latches `paging_enabled := false`
iff bit 5 is set, after which every further `write_7ffd` changes nothing;
with paging disabled it changes no state; concretely, on a fresh 128K
machine writing 0x28 gives `screen_bank = 7`, disables paging, and a
subsequent write of 0x02 has no effect. -/
theorem write_7ffd_paging :
    (∀ (s : ZXController) (d : Nat), s.paging_enabled = false → s.write_7ffd d = s)
    ∧ (∀ (s : ZXController) (d : Nat), s.paging_enabled = true →
        s.memory.ram.length = SIZE_128K → s.memory.rom.length = SIZE_32K →
          ((s.write_7ffd d).memory.map ⟨3, by omega⟩ = Page.Ram (d &&& 0x07)
          ∧ (s.write_7ffd d).screen_bank = (if d &&& 0x08 == 0 then 5 else 7)
          ∧ (s.write_7ffd d).memory.map ⟨0, by omega⟩ = Page.Rom ((d >>> 4) &&& 0x01)
          ∧ ((s.write_7ffd d).paging_enabled = false ↔ d &&& 0x20 ≠ 0)
          ∧ (d &&& 0x20 ≠ 0 → ∀ d2, (s.write_7ffd d).write_7ffd d2 = s.write_7ffd d)))
    ∧ (((ZXController.new ZXMachine.Sinclair128K 70908).write_7ffd 0x28).screen_bank = 7
       ∧ ((ZXController.new ZXMachine.Sinclair128K 70908).write_7ffd 0x28).paging_enabled
           = false
       ∧ ((ZXController.new ZXMachine.Sinclair128K 70908).write_7ffd 0x28).write_7ffd 0x02
           = (ZXController.new ZXMachine.Sinclair128K 70908).write_7ffd 0x28) := by
  have hb : ∀ (s : ZXController) (d : Nat), s.paging_enabled = true →
      s.memory.ram.length = SIZE_128K → s.memory.rom.length = SIZE_32K →
        ((s.write_7ffd d).memory.map ⟨3, by omega⟩ = Page.Ram (d &&& 0x07)
        ∧ (s.write_7ffd d).screen_bank = (if d &&& 0x08 == 0 then 5 else 7)
        ∧ (s.write_7ffd d).memory.map ⟨0, by omega⟩ = Page.Rom ((d >>> 4) &&& 0x01)
        ∧ ((s.write_7ffd d).paging_enabled = false ↔ d &&& 0x20 ≠ 0)
        ∧ (d &&& 0x20 ≠ 0 → ∀ d2, (s.write_7ffd d).write_7ffd d2 = s.write_7ffd d)) := by
    intro s d hp hram hrom
    have hfit3 : pageFits s.memory (Page.Ram (d &&& 0x07)) := by
      have h7 : d &&& 0x07 ≤ 7 := Nat.and_le_right
      rw [pageFits_ram, hram]
      simp only [SIZE_128K, PAGE_SIZE]
      omega
    have e1 := remap_success_eq s.memory 3 (Page.Ram (d &&& 0x07)) (by omega) hfit3
    have hfit0 : pageFits
        { s.memory with
          map := Function.update s.memory.map ⟨3, by omega⟩ (Page.Ram (d &&& 0x07)) }
        (Page.Rom ((d >>> 4) &&& 0x01)) := by
      have h1 : (d >>> 4) &&& 0x01 ≤ 1 := Nat.and_le_right
      rw [pageFits_rom]
      have hr : ({ s.memory with
          map := Function.update s.memory.map ⟨3, by omega⟩
            (Page.Ram (d &&& 0x07)) } : ZXMemory).rom = s.memory.rom := rfl
      rw [hr, hrom]
      simp only [SIZE_32K, PAGE_SIZE]
      omega
    have e2 := remap_success_eq
        { s.memory with
          map := Function.update s.memory.map ⟨3, by omega⟩ (Page.Ram (d &&& 0x07)) }
        0 (Page.Rom ((d >>> 4) &&& 0x01)) (by omega) hfit0
    have hw : s.write_7ffd d = { s with
        memory := { s.memory with
          map := Function.update
            (Function.update s.memory.map ⟨3, by omega⟩ (Page.Ram (d &&& 0x07)))
            ⟨0, by omega⟩ (Page.Rom ((d >>> 4) &&& 0x01)) }
        screen_bank := if d &&& 0x08 == 0 then 5 else 7
        paging_enabled := if d &&& 0x20 != 0 then false else s.paging_enabled } := by
      simp only [ZXController.write_7ffd, hp, Bool.not_true, Bool.false_eq_true,
        if_false, e1, e2]
      split <;> rfl
    have h30 : (⟨3, by omega⟩ : Fin 4) ≠ (⟨0, by omega⟩ : Fin 4) := by
      intro hcon
      exact absurd (congrArg Fin.val hcon) (Nat.succ_ne_zero 2)
    refine ⟨?_, ?_, ?_, ?_, ?_⟩
    · rw [hw]
      simp only [Function.update_noteq h30, Function.update_same]
    · rw [hw]
    · rw [hw]
      simp only [Function.update_same]
    · rw [hw]
      by_cases hl : d &&& 0x20 = 0 <;> simp [hl, hp]
    · intro hl d2
      apply write_7ffd_disabled
      rw [hw]
      simp [hl]
  refine ⟨fun s d h => write_7ffd_disabled s h d, hb, ?_⟩
  have hramlen : (ZXController.new ZXMachine.Sinclair128K 70908).memory.ram.length
      = SIZE_128K := by
    rw [show (ZXController.new ZXMachine.Sinclair128K 70908).memory.ram
        = List.replicate SIZE_128K 0 from rfl, List.length_replicate]
  have hromlen : (ZXController.new ZXMachine.Sinclair128K 70908).memory.rom.length
      = SIZE_32K := by
    rw [show (ZXController.new ZXMachine.Sinclair128K 70908).memory.rom
        = List.replicate SIZE_32K 0 from rfl, List.length_replicate]
  obtain ⟨h3, hsb, h0, hpag, hnoop⟩ :=
    hb (ZXController.new ZXMachine.Sinclair128K 70908) 0x28 rfl hramlen hromlen
  refine ⟨?_, ?_, ?_⟩
  · rw [hsb]; decide
  · exact hpag.mpr (by decide)
  · exact hnoop (by decide) 0x02

/-- C4 witness: a fresh 128K machine has paging enabled and writing 1 to
0x7FFD maps slot 3 to RAM bank 1. -/
theorem write_7ffd_witness :
    ((ZXController.new ZXMachine.Sinclair128K 70908).write_7ffd 1).memory.map ⟨3, by omega⟩
      = Page.Ram (1 &&& 0x07) :=
  (write_7ffd_paging.2.1 (ZXController.new ZXMachine.Sinclair128K 70908) 1 rfl
    (by rw [show (ZXController.new ZXMachine.Sinclair128K 70908).memory.ram
        = List.replicate SIZE_128K 0 from rfl, List.length_replicate])
    (by rw [show (ZXController.new ZXMachine.Sinclair128K 70908).memory.rom
        = List.replicate SIZE_32K 0 from rfl, List.length_replicate])).1

/-- C10 witness: a fresh 16K/16K memory satisfies the invariant and its
reads succeed. -/
theorem memory_safety_witness :
    ((ZXMemory.new RomType.K16 RamType.K16).read 0).isSome = true :=
  (memory_index_safety.1 (ZXMemory.new RomType.K16 RamType.K16) 0 0
    (memory_index_safety.2.1 RomType.K16 RamType.K16)).1

/-- C7 counterexample: if the key is already held down, pressing and
releasing it does not restore the keyboard: from the reachable state with
CAPS SHIFT (row 0, mask 1) pressed, `send_key(k,true); send_key(k,false)`
flips its row from 0xFE back to 0xFF. -/
theorem send_key_roundtrip_counterexample :
    ¬ (((((ZXController.new ZXMachine.Sinclair48K 69888).send_key ⟨0, 1⟩ true).send_key
            ⟨0, 1⟩ true).send_key ⟨0, 1⟩ false).keyboard
        = ((ZXController.new ZXMachine.Sinclair48K 69888).send_key ⟨0, 1⟩ true).keyboard) := by
  decide

/-- C7 amended: `send_key(k,true); send_key(k,false)` restores the
controller exactly, provided the key's row is a byte row of the matrix and
the key's mask bits were set beforehand (the key was not already held
down); a ZXKey mask lies in 0..0x20. -/
theorem send_key_roundtrip (s : ZXController) (key : ZXKey)
    (hrow : key.row_id < s.keyboard.length)
    (hmask : key.mask < 0x20)
    (hbyte : s.keyboard.getD key.row_id 0 < 256)
    (hup : s.keyboard.getD key.row_id 0 &&& key.mask = key.mask) :
    (s.send_key key true).send_key key false = s := by
  have hres := kb_bits_restore (s.keyboard.getD key.row_id 0) hbyte key.mask hmask hup
  have hrow1 : key.row_id < ((s.send_key key true).keyboard).length := by
    simpa [ZXController.send_key, List.length_set] using hrow
  have h1 : (s.send_key key true).keyboard
      = s.keyboard.set key.row_id
          (s.keyboard.getD key.row_id 0 &&& (0xFF ^^^ key.mask)) := by
    simpa using send_key_keyboard_eq s key true hrow
  have h2 : ((s.send_key key true).send_key key false).keyboard
      = (s.send_key key true).keyboard.set key.row_id
          (((s.send_key key true).keyboard.getD key.row_id 0 &&& (0xFF ^^^ key.mask))
            ||| key.mask) := by
    simpa using send_key_keyboard_eq (s.send_key key true) key false hrow1
  have hkb : ((s.send_key key true).send_key key false).keyboard = s.keyboard := by
    rw [h2, h1, getD_set_self _ _ _ hrow, List.set_set, hres,
      set_getD_self _ _ hrow]
  have hfields : (s.send_key key true).send_key key false
      = { (s.send_key key true).send_key key false with keyboard := s.keyboard } := by
    rw [show ((s.send_key key true).send_key key false)
        = { (s.send_key key true).send_key key false with
            keyboard := ((s.send_key key true).send_key key false).keyboard } from rfl,
      hkb]
  rw [hfields]
  show { s with keyboard := s.keyboard } = s
  rfl

/-- C7 witness: pressing and releasing CAPS SHIFT on a fresh 48K machine
restores the controller exactly. -/
theorem send_key_roundtrip_witness :
    ((ZXController.new ZXMachine.Sinclair48K 69888).send_key ⟨0, 1⟩ true).send_key
        ⟨0, 1⟩ false
      = ZXController.new ZXMachine.Sinclair48K 69888 :=
  send_key_roundtrip (ZXController.new ZXMachine.Sinclair48K 69888) ⟨0, 1⟩
    (by decide) (by decide) (by decide) (by decide)

/-- C8: starting from the fresh controller (rows 0xFF), after any finite
sequence of `send_key` calls with masks in 0..0x20, every keyboard row
keeps bits 5-7 set (`row &&& 0xE0 = 0xE0`). -/
theorem keyboard_upper_bits_invariant (m : ZXMachine) (cf : Nat)
    (ops : List (ZXKey × Bool)) (hmask : ∀ op ∈ ops, op.1.mask < 0x20) :
    ∀ b ∈ (ops.foldl (fun s op => s.send_key op.1 op.2)
        (ZXController.new m cf)).keyboard, b &&& 0xE0 = 0xE0 := by
  have hgen : ∀ (ops2 : List (ZXKey × Bool)) (s : ZXController),
      (∀ op ∈ ops2, op.1.mask < 0x20) →
      (∀ b ∈ s.keyboard, b < 256 ∧ b &&& 0xE0 = 0xE0) →
      ∀ b ∈ (ops2.foldl (fun s op => s.send_key op.1 op.2) s).keyboard,
        b < 256 ∧ b &&& 0xE0 = 0xE0 := by
    intro ops2
    induction ops2 with
    | nil => intro s _ hinv; simpa using hinv
    | cons op rest ih =>
      intro s hm hinv
      simp only [List.foldl_cons]
      exact ih _ (fun o ho => hm o (List.mem_cons_of_mem _ ho))
        (send_key_preserves s op.1 op.2 (hm op (List.mem_cons_self _ _)) hinv)
  have hinit : ∀ b ∈ (ZXController.new m cf).keyboard, b < 256 ∧ b &&& 0xE0 = 0xE0 := by
    intro b hb2
    have hb255 : b = 0xFF := by
      cases m <;> simp [ZXController.new, List.mem_replicate] at hb2 <;> exact hb2
    subst hb255
    exact ⟨by norm_num, by decide⟩
  intro b hb
  exact (hgen ops (ZXController.new m cf) hmask hinit b hb).2

/-- C8 witness: after pressing CAPS SHIFT on a fresh 48K machine, row 0
still has bits 5-7 set. -/
theorem keyboard_invariant_witness :
    ([((⟨0, 1⟩ : ZXKey), true)].foldl (fun s op => s.send_key op.1 op.2)
        (ZXController.new ZXMachine.Sinclair48K 69888)).keyboard.getD 0 0 &&& 0xE0
      = 0xE0 :=
  keyboard_upper_bits_invariant ZXMachine.Sinclair48K 69888 [(⟨0, 1⟩, true)]
    (by decide) _ (by decide)

end RustZX
